import Mathlib

/-!
Verification of the CTPL STL thread pool (`src/ctpl_stl.h`).

The development is a shallow embedding of the pool's sequential (quiescent)
semantics: the thread-safe queue `ctpl::detail::Queue` becomes a pure function
on `List`, the pool object `ctpl::thread_pool` becomes a state record, and each
member function becomes a state transformer translated from the source.  The
per-worker `std::shared_ptr<std::atomic<bool>>` stop signals are modelled as a
heap `store : Nat -> Bool` of boolean cells addressed by allocation ids, so
that a signal keeps existing (and keeps its value) after the pool's
bookkeeping vectors drop their reference to it, exactly as the shared pointers
do in the source.  The worker dispatch loop of `set_thread` is modelled
separately as an event-trace function (`workerDrain`).

File layout: all definitions first, then all theorems.
-/

set_option autoImplicit false

namespace Ctpl

/-! ## `ctpl::detail::Queue` (src/ctpl_stl.h lines 85-134)

The queue contents are a `List`, head = front.  `push` appends at the back
(`std::queue::push`) and always reports success; `pop` takes the front.  The
C++ `pop(T & v)` writes its out-parameter only on success: the third component
`Option T` records that write, `none` meaning the slot was left untouched.
Both operations are total functions, which is the model of "returns
immediately, never blocks": blocking-until-available is the worker's job, not
the queue's. -/

namespace Queue

/-- `Queue::push` (line 96): enqueue at the back, always returns `true`. -/
def push {T : Type} (q : List T) (v : T) : Bool × List T :=
  (true, q ++ [v])

/-- `Queue::pop` (line 110): on an empty queue return `false`, leave the queue
unchanged and do not write the out-slot; otherwise return the front element,
remove exactly it, and report `true`. -/
def pop {T : Type} (q : List T) : Bool × List T × Option T :=
  match q with
  | [] => (false, [], none)
  | x :: rest => (true, rest, some x)

/-- `Queue::empty` (line 126). -/
def isEmpty {T : Type} (q : List T) : Bool :=
  q.isEmpty

end Queue

/-- Push a whole sequence of elements, in order, through `Queue.push`. -/
def pushSeq {T : Type} (q : List T) (ps : List T) : List T :=
  ps.foldl (fun acc p => (Queue.push acc p).2) q

/-- Perform `k` successive `Queue.pop` calls, collecting the returned elements
and the final queue state; stops early if a pop reports failure. -/
def popN {T : Type} : Nat → List T → List T × List T
  | 0, q => ([], q)
  | Nat.succ k, q =>
    match Queue.pop q with
    | (true, q2, some v) =>
      let r := popN k q2
      (v :: r.1, r.2)
    | _ => ([], q)

/-! ## Signal heap

The source allocates one `std::shared_ptr<std::atomic<bool>>` per worker slot
(`resize`, line 224) and keeps the pointers in `thread_pool::flags`.  We model
the pointed-to atomic cells as a heap `Nat -> Bool` (cell id to value) plus an
allocation counter `nextId` on the pool state; a flag entry is the id of its
cell.  Writing `*this->flags[i] = true` is a single heap update. -/

/-- One `*flag = true` store into the signal heap. -/
def writeSignal (s : Nat → Bool) (id : Nat) : Nat → Bool :=
  fun j => if j = id then true else s j

/-- Iterated `*flag = true` stores, one per listed cell id, in list order.
(The source's shrink loop iterates indices downward; since every store writes
the constant `true`, the resulting heap does not depend on the order.) -/
def setSignals (s : Nat → Bool) (ids : List Nat) : Nat → Bool :=
  ids.foldl writeSignal s

/-! ## `ctpl::thread_pool` state (src/ctpl_stl.h lines 143-521)

Fields mirror the data members at lines 512-517.  `threads` keeps one entry
per live `std::unique_ptr<std::thread>` slot; `flags` holds the heap ids of
the per-worker stop-signal cells; `q` is the task queue, a task being
identified by a `Nat` (the `std::function<void(int)> *` payloads are opaque
to the pool).  `store`/`nextId` form the signal heap described above.
`executed` is a ghost trace of the tasks that worker threads have run; the
pool's real state does not record it, but the claims about which tasks do or
do not get executed need it. -/

structure thread_pool where
  threads : List Unit
  flags : List Nat
  q : List Nat
  isDone : Bool
  isStop : Bool
  nWaiting : Int
  store : Nat → Bool
  nextId : Nat
  executed : List Nat

namespace thread_pool

/-- `thread_pool::init` (line 505) together with the default constructor
(line 152): empty pool, all state flags cleared. -/
def init : thread_pool where
  threads := []
  flags := []
  q := []
  isDone := false
  isStop := false
  nWaiting := 0
  store := fun _ => false
  nextId := 0
  executed := []

/-- `thread_pool::size` (line 178): `threads.size()`. -/
def size (st : thread_pool) : Nat :=
  st.threads.length

/-- `thread_pool::n_idle` (line 187). -/
def n_idle (st : thread_pool) : Int :=
  st.nWaiting

/-- Well-formedness of a pool state: the two bookkeeping vectors `threads`
and `flags` have the same length.  Every reachable state satisfies this (see
the `wf_` preservation lemmas below); `resize` and `stop` index `flags` by
positions taken from `threads`, so the claims that walk those loops assume
it. -/
abbrev WF (st : thread_pool) : Prop :=
  st.threads.length = st.flags.length

/-- `thread_pool::clear_queue` (line 256): pop-and-delete until the queue is
empty.  The popped tasks are deleted, not executed. -/
def clear_queue (st : thread_pool) : thread_pool :=
  { st with q := [] }

/-- The task submission path shared by both `thread_pool::push` overloads
(lines 360 and 406): the wrapped task is enqueued at the back of the queue via
`Queue::push`, then one waiting worker is notified (no queue effect). -/
def push (t : Nat) (st : thread_pool) : thread_pool :=
  { st with q := (Queue.push st.q t).2 }

/-- `thread_pool::pop` (line 273): pop the queue; if a task pointer came out,
copy it into the returned `std::function` and delete the pointer, else return
a default-constructed (empty) `std::function`.  The returned value `none`
models the empty function. -/
def pool_pop (st : thread_pool) : Option Nat × thread_pool :=
  match Queue.pop st.q with
  | (true, q2, some t) => (some t, { st with q := q2 })
  | _ => (none, st)

/-- Invocation of the `std::function<void(int)>` returned by
`thread_pool::pop`.  Calling an empty `std::function` raises
`std::bad_function_call` ([func.wrap.func.inv]), modelled as `Except.error`;
a non-empty one runs the stored task. -/
def invokeReturned (f : Option Nat) : Except Unit Nat :=
  match f with
  | none => Except.error ()
  | some t => Except.ok t

/-- `thread_pool::resize` (lines 214-244).  Guard: only when neither stopped
nor done (line 215).  Grow (lines 218-227): extend both vectors to `n`,
allocate a fresh signal cell (value `false`) and a thread for each new index.
Shrink (lines 228-242): set the signal of every index from `oldN-1` down to
`n` (the heap result is order-independent), detach those threads, then
truncate both vectors to `n`.  The C++ argument is a signed `int`; for `n < 0`
the shrink loop in the source under-runs the vectors (see `resizeAccesses`),
so this state function is faithful only for `n >= 0`. -/
def resize (n : Int) (st : thread_pool) : thread_pool :=
  if st.isStop = false ∧ st.isDone = false then
    let oldN := st.threads.length
    if (oldN : Int) ≤ n then
      let cnt := n.toNat - oldN
      { st with
        threads := st.threads ++ List.replicate cnt ()
        flags := st.flags ++ (List.range cnt).map (fun j => st.nextId + j)
        store := fun j => if st.nextId ≤ j ∧ j < st.nextId + cnt then false else st.store j
        nextId := st.nextId + cnt }
    else
      let k := n.toNat
      { st with
        store := setSignals st.store (st.flags.drop k)
        threads := st.threads.take k
        flags := st.flags.take k }
  else st

/-- The `(index, vector length at access time)` pairs of every
`this->flags[i]` / `this->threads[i]` access performed by the body of
`thread_pool::resize` (lines 214-244), index kept as the C++ `int`.
Grow: after both vectors are resized to `n`, indices `oldN .. n-1` are
accessed (lines 224-225 and, inside `set_thread`, 459 and 497).
Shrink: indices `oldN-1` down to `n` are accessed while the vectors still
have length `oldN` (lines 231-232); for `n < 0` this descends past index 0.
Under `WF` both vectors have the same length, so one bound per access
suffices. -/
def resizeAccesses (oldN : Nat) (n : Int) : List (Int × Nat) :=
  if (oldN : Int) ≤ n then
    (List.range (n.toNat - oldN)).map
      (fun j : Nat => (((oldN + j : Nat) : Int), n.toNat))
  else
    (List.range ((oldN : Int) - n).toNat).map
      (fun j : Nat => ((oldN : Int) - 1 - (j : Int), oldN))

/-- The vector accesses of a full `resize(n)` call on a pool state: the guard
at line 215 performs none when the pool is stopped or done. -/
def poolResizeAccesses (st : thread_pool) (n : Int) : List (Int × Nat) :=
  if st.isStop = false ∧ st.isDone = false then resizeAccesses st.threads.length n
  else []

/-- The managed threads joined by `thread_pool::stop(isWait)` (lines 325-328):
none if the call returns early at line 303/314, otherwise every thread still
in the vector (all of which are joinable: detached threads were removed from
the vector by `resize`). -/
def stopJoined (isWait : Bool) (st : thread_pool) : List Unit :=
  if isWait = false then
    if st.isStop = true then [] else st.threads
  else
    if st.isDone = true ∨ st.isStop = true then [] else st.threads

/-- `thread_pool::stop` (lines 301-334).

Immediate mode (`isWait = false`, lines 302-312): early return if already
stopped; else set `isStop`, set every managed worker's signal (loop at
line 308 runs over thread indices `0 .. size()-1`, reading `flags[i]`), and
clear the queue, discarding the tasks.  Then notify, join every managed
thread, clear the queue again and clear both vectors (lines 318-333).  At the
join the queue is already empty and every signal is set, so the workers
execute nothing further.

Drain mode (`isWait = true`, lines 313-317): early return if already done or
stopped; else set `isDone` and notify.  During the joins (lines 325-328) the
worker threads keep popping and executing tasks until the queue is empty and
then retire (worker loop, lines 462-494, with `isDone` set); that drain is
recorded in the ghost `executed` trace — provided at least one managed worker
exists.  With zero workers nothing runs, and the final `clear_queue`
(line 331) discards whatever is still queued. -/
def stop (isWait : Bool) (st : thread_pool) : thread_pool :=
  if isWait = false then
    if st.isStop = true then st
    else
      { st with
        isStop := true
        store := setSignals st.store (st.flags.take st.threads.length)
        q := []
        threads := []
        flags := [] }
  else
    if st.isDone = true ∨ st.isStop = true then st
    else
      let drained :=
        if st.threads.isEmpty then st
        else { st with executed := st.executed ++ st.q, q := [] }
      { drained with isDone := true, q := [], threads := [], flags := [] }

/-- `thread_pool::~thread_pool` (lines 169-171): the destructor body is
exactly `this->stop(true);`. -/
def destroy (st : thread_pool) : thread_pool :=
  stop true st

end thread_pool

/-! ## Worker dispatch loop (src/ctpl_stl.h lines 457-498)

`workerDrain` models the inner `while (isPop)` loop of the worker lambda
(lines 465-477) on a fixed queue snapshot, as the trace of events the worker
performs: a successful pop (line 465/476), the execution of the popped task
(line 471), and the read of the worker's own atomic stop signal (line 473).
Because the controller may set the signal concurrently, the value read at the
`k`-th check is an arbitrary function `flagAt k` of the check's index.  A
failed pop (`popFail`) is where the source falls through to the parked state
of the outer loop. -/

inductive WEvent where
  | popOk : Nat → WEvent
  | popFail : WEvent
  | exec : Nat → WEvent
  | check : Bool → WEvent
deriving DecidableEq

/-- Event trace of the worker's inner drain loop: pop; on success execute the
popped task, then check the stop signal; if the signal read `true`, return
from the thread function at once (line 474), else pop again. -/
def workerDrain (flagAt : Nat → Bool) : Nat → List Nat → List WEvent
  | _, [] => [WEvent.popFail]
  | k, t :: rest =>
    WEvent.popOk t :: WEvent.exec t :: WEvent.check (flagAt k) ::
      (if flagAt k then [] else workerDrain flagAt (k + 1) rest)

/-! ## Concrete pool states used by witnesses and counterexamples -/

/-- A running pool with two managed workers (signal cells 0 and 1, both
unset) and one queued task. -/
def poolTwoWorkers : thread_pool where
  threads := [(), ()]
  flags := [0, 1]
  q := [9]
  isDone := false
  isStop := false
  nWaiting := 0
  store := fun _ => false
  nextId := 2
  executed := []

/-- A running pool with zero workers and one queued (never-executed) task. -/
def poolNoWorkers : thread_pool where
  threads := []
  flags := []
  q := [7]
  isDone := false
  isStop := false
  nWaiting := 0
  store := fun _ => false
  nextId := 0
  executed := []

/-- A running pool with one managed worker and one queued task. -/
def poolOneWorkerTask : thread_pool where
  threads := [()]
  flags := [0]
  q := [4]
  isDone := false
  isStop := false
  nWaiting := 0
  store := fun _ => false
  nextId := 1
  executed := []

/-- A running pool with two managed workers and an empty queue. -/
def poolTwoIdle : thread_pool where
  threads := [(), ()]
  flags := [0, 1]
  q := []
  isDone := false
  isStop := false
  nWaiting := 0
  store := fun _ => false
  nextId := 2
  executed := []

/-- A pool that has been immediately stopped (`isStop` set, vectors cleared). -/
def poolStopped : thread_pool where
  threads := []
  flags := []
  q := []
  isDone := false
  isStop := true
  nWaiting := 0
  store := fun _ => false
  nextId := 3
  executed := []

/-- A running pool with one managed worker and an empty queue. -/
def poolOneWorker : thread_pool where
  threads := [()]
  flags := [0]
  q := []
  isDone := false
  isStop := false
  nWaiting := 0
  store := fun _ => false
  nextId := 1
  executed := []

/-- An empty-queue running pool with no workers, for exercising
`thread_pool::pop`. -/
def poolEmptyQueue : thread_pool where
  threads := []
  flags := []
  q := []
  isDone := false
  isStop := false
  nWaiting := 0
  store := fun _ => false
  nextId := 0
  executed := []

end Ctpl

/-! ## Theorems -/

namespace Ctpl

theorem pushSeq_eq_append {T : Type} (ps : List T) :
    ∀ q : List T, pushSeq q ps = q ++ ps := by
  induction ps with
  | nil => intro q; simp [pushSeq]
  | cons p rest ih =>
    intro q
    have h1 : pushSeq q (p :: rest) = pushSeq (q ++ [p]) rest := rfl
    rw [h1, ih (q ++ [p])]
    simp

theorem popN_length_self {T : Type} (ps : List T) :
    popN ps.length ps = (ps, []) := by
  induction ps with
  | nil => rfl
  | cons x rest ih => simp [popN, Queue.pop, ih]

/-- A signal cell already holding `true` still holds `true` after any further
sequence of `*flag = true` stores. -/
theorem setSignals_preserve (ids : List Nat) :
    ∀ (s : Nat → Bool) (id : Nat), s id = true → setSignals s ids id = true := by
  induction ids with
  | nil => intro s id h; simpa [setSignals] using h
  | cons a rest ih =>
    intro s id h
    show setSignals (writeSignal s a) rest id = true
    apply ih
    simp only [writeSignal]
    split
    · rfl
    · exact h

/-- Every cell whose id is in the list holds `true` after `setSignals`. -/
theorem setSignals_mem (ids : List Nat) :
    ∀ (s : Nat → Bool) (id : Nat), id ∈ ids → setSignals s ids id = true := by
  induction ids with
  | nil => intro s id h; cases h
  | cons a rest ih =>
    intro s id h
    cases h with
    | head =>
      show setSignals (writeSignal s a) rest a = true
      apply setSignals_preserve
      simp [writeSignal]
    | tail _ hm =>
      show setSignals (writeSignal s a) rest id = true
      exact ih (writeSignal s a) id hm

namespace thread_pool

/-- Unfolding of the immediate-stop branch when the pool was not already
stopped. -/
theorem stop_false_eq (st : thread_pool) (h : ¬ st.isStop = true) :
    stop false st =
      { st with
        isStop := true
        store := setSignals st.store (st.flags.take st.threads.length)
        q := []
        threads := []
        flags := [] } := by
  show (if st.isStop = true then st else _) = _
  rw [if_neg h]

/-- After an immediate stop the pool-wide stop flag is set (either it already
was, or line 305 just set it). -/
theorem stop_false_isStop (st : thread_pool) : (stop false st).isStop = true := by
  show (if st.isStop = true then st else _).isStop = true
  split
  · assumption
  · rfl

/-- The early return of `stop(false)` at line 303. -/
theorem stop_false_of_isStop (st : thread_pool) (h : st.isStop = true) :
    stop false st = st := by
  show (if st.isStop = true then st else _) = st
  rw [if_pos h]

/-- The early return of `stop(true)` at line 314. -/
theorem stop_true_of_finished (st : thread_pool)
    (h : st.isDone = true ∨ st.isStop = true) : stop true st = st := by
  show (if st.isDone = true ∨ st.isStop = true then st else _) = st
  rw [if_pos h]

/-- After a drain stop the pool is done or stopped (either it already was, or
line 316 set `isDone`). -/
theorem stop_true_finished (st : thread_pool) :
    (stop true st).isDone = true ∨ (stop true st).isStop = true := by
  by_cases h : st.isDone = true ∨ st.isStop = true
  · rw [stop_true_of_finished st h]; exact h
  · left
    show (if st.isDone = true ∨ st.isStop = true then st else _).isDone = true
    rw [if_neg h]

/-- An early-returning `stop(false)` joins no threads. -/
theorem stopJoined_false_of_isStop (st : thread_pool) (h : st.isStop = true) :
    stopJoined false st = [] := by
  show (if st.isStop = true then ([] : List Unit) else st.threads) = []
  rw [if_pos h]

/-- An early-returning `stop(true)` joins no threads. -/
theorem stopJoined_true_of_finished (st : thread_pool)
    (h : st.isDone = true ∨ st.isStop = true) : stopJoined true st = [] := by
  show (if st.isDone = true ∨ st.isStop = true then ([] : List Unit) else st.threads) = []
  rw [if_pos h]

end thread_pool

/-- Claim C1: the task queue is FIFO.  Pushing P1..Pn into an empty
`ctpl::detail::Queue` with no interleaved pops and then popping n times
returns exactly P1..Pn in that order (leaving the queue empty), and each
single pop removes exactly the element it returns: on a queue with front `x`
and remainder `rest`, `Queue::pop` returns `x` and leaves exactly `rest`. -/
theorem queue_fifo_order {T : Type} (ps : List T) :
    popN ps.length (pushSeq [] ps) = (ps, []) ∧
    ∀ (x : T) (rest : List T), Queue.pop (x :: rest) = (true, rest, some x) := by
  constructor
  · rw [pushSeq_eq_append ps []]
    simpa using popN_length_self ps
  · intro x rest
    rfl

/-- Claim C9: `Queue::pop` on an empty queue returns `false` immediately (it
is a total, non-blocking function), leaves the queue unchanged (still empty)
and does not write the out-slot (`none`); `Queue::push` always succeeds,
returning `true` and the queue with the value appended at the back, since
capacity is unbounded. -/
theorem queue_pop_empty_push_total (T : Type) :
    Queue.pop ([] : List T) = (false, [], none) ∧
    ∀ (q : List T) (v : T), Queue.push q v = (true, q ++ [v]) :=
  ⟨rfl, fun _ _ => rfl⟩

/-- Claim C6: on a pool that is Draining (`isDone` set) or Stopped (`isStop`
set), `thread_pool::resize` is a complete no-op for every argument `n`: the
guard at line 215 fails and the whole pool state — worker vector, flag
vector, signal heap, queue, counters — is left unchanged. -/
theorem resize_noop_when_finished (st : thread_pool) (n : Int)
    (h : st.isStop = true ∨ st.isDone = true) :
    thread_pool.resize n st = st := by
  show (if st.isStop = false ∧ st.isDone = false then _ else st) = st
  rw [if_neg]
  rintro ⟨h1, h2⟩
  cases h with
  | inl hs => rw [hs] at h1; cases h1
  | inr hd => rw [hd] at h2; cases h2

/-- Witness for claim C6 at a concrete stopped pool. -/
theorem resize_noop_when_finished_witness :
    (poolStopped.isStop = true ∨ poolStopped.isDone = true) ∧
    thread_pool.resize 5 poolStopped = poolStopped :=
  ⟨Or.inl rfl, resize_noop_when_finished poolStopped 5 (Or.inl rfl)⟩

/-- Claim C8 counterexample: on an empty queue, `thread_pool::pop` does
return an empty `std::function` without blocking and without touching the
pool, but invoking that empty callable is not a harmless no-op: calling an
empty `std::function` raises `std::bad_function_call`, modelled by
`invokeReturned` producing an error. -/
theorem pool_pop_empty_invoke_raises :
    thread_pool.pool_pop poolEmptyQueue = (none, poolEmptyQueue) ∧
    thread_pool.invokeReturned (thread_pool.pool_pop poolEmptyQueue).1 =
      Except.error () :=
  ⟨rfl, rfl⟩

/-- Claim C8 (amended): when the task queue is empty, `thread_pool::pop`
returns an empty callable without blocking or failing and leaves the pool
state unchanged; invoking the returned empty callable raises
`std::bad_function_call` rather than acting as a no-op, so the caller must
test the callable for emptiness before invoking it. -/
theorem pool_pop_empty (st : thread_pool) (h : st.q = []) :
    thread_pool.pool_pop st = (none, st) ∧
    thread_pool.invokeReturned (thread_pool.pool_pop st).1 = Except.error () := by
  have h1 : thread_pool.pool_pop st = (none, st) := by
    show (match Queue.pop st.q with
      | (true, q2, some t) => (some t, { st with q := q2 })
      | _ => (none, st)) = (none, st)
    rw [h]
    rfl
  refine ⟨h1, ?_⟩
  rw [h1]
  rfl

/-- Threads are joined by `stop` only out of the pool's own vector: with an
empty vector nothing is joined. -/
theorem stopJoined_of_threads_nil (w : Bool) (st : thread_pool)
    (h : st.threads = []) : thread_pool.stopJoined w st = [] := by
  unfold thread_pool.stopJoined
  split
  · split
    · rfl
    · exact h
  · split
    · rfl
    · exact h

/-- Witness for claim C8 (amended) at a concrete empty-queue pool. -/
theorem pool_pop_empty_witness :
    poolEmptyQueue.q = [] ∧
    (thread_pool.pool_pop poolEmptyQueue = (none, poolEmptyQueue) ∧
      thread_pool.invokeReturned (thread_pool.pool_pop poolEmptyQueue).1 =
        Except.error ()) :=
  ⟨rfl, pool_pop_empty poolEmptyQueue rfl⟩

/-- Claim C4: shutdown is idempotent.  For every pool state, a second
`stop(false)` after a `stop(false)` and a second `stop(true)` after a
`stop(true)` return without changing any pool state; no call sequence joins a
thread twice: the repeated calls join nothing, and after a drain stop that
actually ran, a following `stop(false)` joins nothing and finds an already
empty queue (so the final `clear_queue` frees nothing twice).  If the drain
stop was itself an early-returning no-op, nothing was joined or freed by it
in the first place. -/
theorem stop_shutdown_idempotent (st : thread_pool) :
    thread_pool.stop false (thread_pool.stop false st) = thread_pool.stop false st ∧
    thread_pool.stop true (thread_pool.stop true st) = thread_pool.stop true st ∧
    thread_pool.stopJoined false (thread_pool.stop false st) = [] ∧
    thread_pool.stopJoined true (thread_pool.stop true st) = [] ∧
    (thread_pool.stop true st = st ∨
      (thread_pool.stopJoined false (thread_pool.stop true st) = [] ∧
        (thread_pool.stop true st).q = [])) := by
  refine ⟨?_, ?_, ?_, ?_, ?_⟩
  · exact thread_pool.stop_false_of_isStop _ (thread_pool.stop_false_isStop st)
  · exact thread_pool.stop_true_of_finished _ (thread_pool.stop_true_finished st)
  · exact thread_pool.stopJoined_false_of_isStop _ (thread_pool.stop_false_isStop st)
  · exact thread_pool.stopJoined_true_of_finished _ (thread_pool.stop_true_finished st)
  · by_cases h : st.isDone = true ∨ st.isStop = true
    · exact Or.inl (thread_pool.stop_true_of_finished st h)
    · right
      have hR : thread_pool.stop true st =
          { (if st.threads.isEmpty then st
             else { st with executed := st.executed ++ st.q, q := [] }) with
            isDone := true, q := [], threads := [], flags := [] } := by
        show (if st.isDone = true ∨ st.isStop = true then st else _) = _
        rw [if_neg h]
      have hT : (thread_pool.stop true st).threads = [] := by
        rw [hR]
      have hQ : (thread_pool.stop true st).q = [] := by
        rw [hR]
      exact ⟨stopJoined_of_threads_nil false _ hT, hQ⟩

/-- Claim C2: after `stop(false)` returns on a pool that was not already
immediately stopped, every managed worker's stop-signal cell holds `true`
(the loop at line 308), every queued-but-unexecuted task has been removed
from the queue without being executed (`clear_queue` at line 311: the queue
is empty and the ghost execution trace is unchanged), and the managed worker
vector and flag vector are cleared, so `size()` is `0` (lines 332-333). -/
theorem stop_immediate_discards_and_clears (st : thread_pool)
    (hwf : thread_pool.WF st) (h : st.isStop = false) :
    (∀ id ∈ st.flags, (thread_pool.stop false st).store id = true) ∧
    (thread_pool.stop false st).q = [] ∧
    (thread_pool.stop false st).executed = st.executed ∧
    (thread_pool.stop false st).threads = [] ∧
    (thread_pool.stop false st).flags = [] ∧
    thread_pool.size (thread_pool.stop false st) = 0 := by
  have hne : ¬ st.isStop = true := by rw [h]; simp
  have hS := thread_pool.stop_false_eq st hne
  have htake : st.flags.take st.threads.length = st.flags := by
    rw [hwf]
    exact List.take_length st.flags
  refine ⟨?_, ?_, ?_, ?_, ?_, ?_⟩
  · intro id hid
    rw [hS]
    show setSignals st.store (st.flags.take st.threads.length) id = true
    rw [htake]
    exact setSignals_mem st.flags st.store id hid
  · rw [hS]
  · rw [hS]
  · rw [hS]
  · rw [hS]
  · rw [hS]
    rfl

/-- Witness for claim C2 at a concrete two-worker pool with a queued task. -/
theorem stop_immediate_discards_and_clears_witness :
    (thread_pool.WF poolTwoWorkers ∧ poolTwoWorkers.isStop = false) ∧
    ((∀ id ∈ poolTwoWorkers.flags,
        (thread_pool.stop false poolTwoWorkers).store id = true) ∧
      (thread_pool.stop false poolTwoWorkers).q = [] ∧
      (thread_pool.stop false poolTwoWorkers).executed = poolTwoWorkers.executed ∧
      (thread_pool.stop false poolTwoWorkers).threads = [] ∧
      (thread_pool.stop false poolTwoWorkers).flags = [] ∧
      thread_pool.size (thread_pool.stop false poolTwoWorkers) = 0) :=
  ⟨⟨rfl, rfl⟩, stop_immediate_discards_and_clears poolTwoWorkers rfl rfl⟩

/-- Claim C3 counterexample: on a pool with zero workers and a still-queued
task (task 7), destroying the pool — which performs `stop(true)` — does not
run the task: the final `clear_queue` at line 331 discards it, so nothing is
ever executed, refuting "all previously submitted (still-queued) tasks are
run before the pool's resources are released". -/
theorem destructor_abandons_task_without_workers :
    7 ∈ poolNoWorkers.q ∧ poolNoWorkers.isStop = false ∧
    poolNoWorkers.isDone = false ∧
    (thread_pool.destroy poolNoWorkers).executed = [] ∧
    7 ∉ (thread_pool.destroy poolNoWorkers).executed := by
  refine ⟨by decide, rfl, rfl, by decide, by decide⟩

/-- Claim C3 (amended): destroying the pool performs exactly `stop(wait=true)`
(the destructor body, lines 169-171, is `this->stop(true);`).  On a running
pool (neither stopped nor draining) that manages at least one worker, every
still-queued task is run before the resources are released and the queue
ends empty.  On a running pool with zero workers the still-queued tasks are
instead discarded unexecuted by the final `clear_queue` at line 331: nothing
is executed and the queue still ends empty. -/
theorem destructor_is_drain_stop (st : thread_pool) :
    thread_pool.destroy st = thread_pool.stop true st ∧
    (st.isStop = false → st.isDone = false → st.threads ≠ [] →
      (∀ t ∈ st.q, t ∈ (thread_pool.destroy st).executed) ∧
        (thread_pool.destroy st).q = []) ∧
    (st.isStop = false → st.isDone = false → st.threads = [] →
      (thread_pool.destroy st).executed = st.executed ∧
        (thread_pool.destroy st).q = []) := by
  refine ⟨rfl, ?_, ?_⟩
  · intro hs hd hne
    have hg : ¬ (st.isDone = true ∨ st.isStop = true) := by
      rw [hs, hd]; simp
    have hE : st.threads.isEmpty = false := by
      cases hT : st.threads with
      | nil => exact absurd hT hne
      | cons a l => rfl
    have hR : thread_pool.destroy st =
        { st with
          executed := st.executed ++ st.q
          q := []
          isDone := true
          threads := []
          flags := [] } := by
      show (if st.isDone = true ∨ st.isStop = true then st else _) = _
      rw [if_neg hg, hE]
      rfl
    constructor
    · intro t ht
      rw [hR]
      show t ∈ st.executed ++ st.q
      exact List.mem_append.2 (Or.inr ht)
    · rw [hR]
  · intro hs hd hT
    have hg : ¬ (st.isDone = true ∨ st.isStop = true) := by
      rw [hs, hd]; simp
    have hE : st.threads.isEmpty = true := by
      rw [hT]; rfl
    have hR : thread_pool.destroy st =
        { st with
          q := []
          isDone := true
          threads := []
          flags := [] } := by
      show (if st.isDone = true ∨ st.isStop = true then st else _) = _
      rw [if_neg hg, hE]
      rfl
    constructor
    · rw [hR]
    · rw [hR]

/-- Witness for claim C3 (amended): the one-worker pool runs its queued task
4 at destruction; the zero-worker pool (holding queued task 7) executes
nothing and ends with an empty queue. -/
theorem destructor_is_drain_stop_witness :
    ((poolOneWorkerTask.isStop = false ∧ poolOneWorkerTask.isDone = false ∧
        poolOneWorkerTask.threads ≠ [] ∧ 4 ∈ poolOneWorkerTask.q) ∧
      4 ∈ (thread_pool.destroy poolOneWorkerTask).executed) ∧
    ((poolNoWorkers.isStop = false ∧ poolNoWorkers.isDone = false ∧
        poolNoWorkers.threads = []) ∧
      (thread_pool.destroy poolNoWorkers).executed = poolNoWorkers.executed ∧
        (thread_pool.destroy poolNoWorkers).q = []) :=
  ⟨⟨⟨rfl, rfl, by decide, by decide⟩,
      ((destructor_is_drain_stop poolOneWorkerTask).2.1 rfl rfl (by decide)).1 4
        (by decide)⟩,
    ⟨⟨rfl, rfl, rfl⟩,
      (destructor_is_drain_stop poolNoWorkers).2.2 rfl rfl rfl⟩⟩

/-- Unfolding of the grow branch of `resize` (lines 218-227). -/
theorem resize_grow_eq (st : thread_pool) (n : Int) (hs : st.isStop = false)
    (hd : st.isDone = false) (hg : (st.threads.length : Int) ≤ n) :
    thread_pool.resize n st =
      { st with
        threads := st.threads ++ List.replicate (n.toNat - st.threads.length) ()
        flags := st.flags ++ (List.range (n.toNat - st.threads.length)).map
          (fun j => st.nextId + j)
        store := fun j =>
          if st.nextId ≤ j ∧ j < st.nextId + (n.toNat - st.threads.length)
          then false else st.store j
        nextId := st.nextId + (n.toNat - st.threads.length) } := by
  show (if st.isStop = false ∧ st.isDone = false then
    if (st.threads.length : Int) ≤ n then _ else _ else st) = _
  rw [if_pos ⟨hs, hd⟩, if_pos hg]

/-- Unfolding of the shrink branch of `resize` (lines 228-242). -/
theorem resize_shrink_eq (st : thread_pool) (n : Int) (hs : st.isStop = false)
    (hd : st.isDone = false) (hg : ¬ (st.threads.length : Int) ≤ n) :
    thread_pool.resize n st =
      { st with
        store := setSignals st.store (st.flags.drop n.toNat)
        threads := st.threads.take n.toNat
        flags := st.flags.take n.toNat } := by
  show (if st.isStop = false ∧ st.isDone = false then
    if (st.threads.length : Int) ≤ n then _ else _ else st) = _
  rw [if_pos ⟨hs, hd⟩, if_neg hg]

/-- Claim C5: on a Running pool (neither stopped nor draining) and for any
argument `n >= 0`, after `resize(n)` completes `size() == n`, and the
stop-signal cell of every worker whose index was `>= n` before the call (the
entries of `flags` past position `n`, which keep existing in the signal heap
after the vectors are truncated) holds `true`. -/
theorem resize_running_size_and_signals (st : thread_pool) (n : Int)
    (hwf : thread_pool.WF st) (hs : st.isStop = false) (hd : st.isDone = false)
    (hn : 0 ≤ n) :
    ((thread_pool.size (thread_pool.resize n st) : Int) = n) ∧
    ∀ id ∈ st.flags.drop n.toNat, (thread_pool.resize n st).store id = true := by
  by_cases hg : (st.threads.length : Int) ≤ n
  · rw [resize_grow_eq st n hs hd hg]
    constructor
    · show (((st.threads ++ List.replicate (n.toNat - st.threads.length) ()).length : Nat) : Int) = n
      rw [List.length_append, List.length_replicate]
      omega
    · intro id hid
      have hlen : st.flags.length ≤ n.toNat := by
        rw [← hwf]
        omega
      rw [List.drop_eq_nil_of_le hlen] at hid
      cases hid
  · rw [resize_shrink_eq st n hs hd hg]
    constructor
    · show (((st.threads.take n.toNat).length : Nat) : Int) = n
      rw [List.length_take]
      omega
    · intro id hid
      show setSignals st.store (st.flags.drop n.toNat) id = true
      exact setSignals_mem _ _ _ hid

/-- Witness for claim C5: shrinking a concrete running two-worker pool to one
worker sets the signal cell (id 1) of the worker at index 1. -/
theorem resize_running_size_and_signals_witness :
    (thread_pool.WF poolTwoIdle ∧ poolTwoIdle.isStop = false ∧
      poolTwoIdle.isDone = false ∧ (0 : Int) ≤ 1) ∧
    (((thread_pool.size (thread_pool.resize 1 poolTwoIdle) : Nat) : Int) = 1 ∧
      ∀ id ∈ poolTwoIdle.flags.drop (1 : Int).toNat,
        (thread_pool.resize 1 poolTwoIdle).store id = true) :=
  ⟨⟨rfl, rfl, rfl, by decide⟩,
    resize_running_size_and_signals poolTwoIdle 1 rfl rfl rfl (by decide)⟩

/-- In a worker drain trace, a stop-signal check that read `true` is always
the very last event: the worker returns at once (line 474). -/
theorem workerDrain_check_true_last (flagAt : Nat → Bool) :
    ∀ (q : List Nat) (k i : Nat),
      (workerDrain flagAt k q).get? i = some (WEvent.check true) →
      (workerDrain flagAt k q).length = i + 1 := by
  intro q
  induction q with
  | nil =>
    intro k i h
    cases i with
    | zero => simp [workerDrain] at h
    | succ j => simp [workerDrain] at h
  | cons t rest ih =>
    intro k i h
    by_cases hf : flagAt k = true
    · cases i with
      | zero => simp [workerDrain, hf] at h
      | succ i1 =>
        cases i1 with
        | zero => simp [workerDrain, hf] at h
        | succ i2 =>
          cases i2 with
          | zero => simp [workerDrain, hf]
          | succ i3 => simp [workerDrain, hf] at h
    · have hf2 : flagAt k = false := by
        cases hv : flagAt k
        · rfl
        · exact absurd hv hf
      cases i with
      | zero => simp [workerDrain, hf2] at h
      | succ i1 =>
        cases i1 with
        | zero => simp [workerDrain, hf2] at h
        | succ i2 =>
          cases i2 with
          | zero => simp [workerDrain, hf2] at h
          | succ i3 =>
            have h3 : (workerDrain flagAt (k + 1) rest).get? i3 =
                some (WEvent.check true) := by
              simpa [workerDrain, hf2] using h
            have := ih (k + 1) i3 h3
            simp [workerDrain, hf2]
            omega

/-- In a worker drain trace, every task execution is immediately followed by
a read of the worker's own stop signal (line 473) before any further pop. -/
theorem workerDrain_exec_then_check (flagAt : Nat → Bool) :
    ∀ (q : List Nat) (k i t : Nat),
      (workerDrain flagAt k q).get? i = some (WEvent.exec t) →
      ∃ b, (workerDrain flagAt k q).get? (i + 1) = some (WEvent.check b) := by
  intro q
  induction q with
  | nil =>
    intro k i t h
    cases i with
    | zero => simp [workerDrain] at h
    | succ j => simp [workerDrain] at h
  | cons u rest ih =>
    intro k i t h
    cases i with
    | zero => simp [workerDrain] at h
    | succ i1 =>
      cases i1 with
      | zero => exact ⟨flagAt k, rfl⟩
      | succ i2 =>
        cases i2 with
        | zero => simp [workerDrain] at h
        | succ i3 =>
          by_cases hf : flagAt k = true
          · simp [workerDrain, hf] at h
          · have hf2 : flagAt k = false := by
              cases hv : flagAt k
              · rfl
              · exact absurd hv hf
            have h3 : (workerDrain flagAt (k + 1) rest).get? i3 =
                some (WEvent.exec t) := by
              simpa [workerDrain, hf2] using h
            have hex := ih (k + 1) i3 t h3
            obtain ⟨b, hb⟩ := hex
            refine ⟨b, ?_⟩
            simpa [workerDrain, hf2] using hb

/-- Claim C7: in the worker dispatch loop, after executing a task the worker
reads its own stop signal before attempting another pop (every `exec` event
in the drain trace is immediately followed by a `check` event), and if that
read returned `true`, the worker performs no further event whatsoever — no
pop, no execution, no claim — even though the queue may be non-empty: a
`check true` event is always the last event of the trace. -/
theorem worker_retires_on_signal (flagAt : Nat → Bool) (k : Nat) (q : List Nat) :
    (∀ i, (workerDrain flagAt k q).get? i = some (WEvent.check true) →
      (workerDrain flagAt k q).length = i + 1) ∧
    (∀ i t, (workerDrain flagAt k q).get? i = some (WEvent.exec t) →
      ∃ b, (workerDrain flagAt k q).get? (i + 1) = some (WEvent.check b)) :=
  ⟨fun i => workerDrain_check_true_last flagAt q k i,
    fun i t => workerDrain_exec_then_check flagAt q k i t⟩

/-- Witness for claim C7: with the stop signal set and two queued tasks, the
drain trace is pop, exec, check — and nothing after the `check true`, the
second task staying unclaimed. -/
theorem worker_retires_on_signal_witness :
    ((workerDrain (fun _ => true) 0 [5, 7]).get? 2 = some (WEvent.check true) ∧
      (workerDrain (fun _ => true) 0 [5, 7]).length = 2 + 1) ∧
    ((workerDrain (fun _ => true) 0 [5, 7]).get? 1 = some (WEvent.exec 5) ∧
      ∃ b, (workerDrain (fun _ => true) 0 [5, 7]).get? (1 + 1) =
        some (WEvent.check b)) :=
  ⟨⟨by decide, (worker_retires_on_signal (fun _ => true) 0 [5, 7]).1 2 (by decide)⟩,
    ⟨by decide, (worker_retires_on_signal (fun _ => true) 0 [5, 7]).2 1 5 (by decide)⟩⟩

/-- Claim C10: index safety of `resize` is conditional on a non-negative
argument.  For every well-formed pool state and every `n >= 0`, each index
`i` at which the body of `resize(n)` reads `this->flags[i]` or
`this->threads[i]` satisfies `0 <= i < ` the vectors' length at the access
(under `WF` both vectors have that same length); and the bound does not hold
for every integer argument: on a running one-worker pool, `resize(-1)`
reaches index `-1` in vectors of length 1. -/
theorem resize_index_bounds :
    (∀ (st : thread_pool) (n : Int), thread_pool.WF st → 0 ≤ n →
      ∀ p ∈ thread_pool.poolResizeAccesses st n, 0 ≤ p.1 ∧ p.1 < (p.2 : Int)) ∧
    (((-1 : Int), (1 : Nat)) ∈ thread_pool.poolResizeAccesses poolOneWorker (-1) ∧
      ¬ (0 ≤ (-1 : Int))) := by
  constructor
  · intro st n _hwf hn p hp
    by_cases hr : st.isStop = false ∧ st.isDone = false
    · rw [thread_pool.poolResizeAccesses, if_pos hr] at hp
      by_cases hg : (st.threads.length : Int) ≤ n
      · rw [thread_pool.resizeAccesses, if_pos hg] at hp
        obtain ⟨j, hj, rfl⟩ := List.mem_map.1 hp
        have hj2 := List.mem_range.1 hj
        constructor
        · omega
        · show ((st.threads.length + j : Nat) : Int) < ((n.toNat : Nat) : Int)
          omega
      · rw [thread_pool.resizeAccesses, if_neg hg] at hp
        obtain ⟨j, hj, rfl⟩ := List.mem_map.1 hp
        have hj2 := List.mem_range.1 hj
        constructor
        · show 0 ≤ (st.threads.length : Int) - 1 - j
          omega
        · show (st.threads.length : Int) - 1 - j < ((st.threads.length : Nat) : Int)
          omega
    · rw [thread_pool.poolResizeAccesses, if_neg hr] at hp
      cases hp
  · exact ⟨by decide, by decide⟩

/-- Witness for claim C10: on a concrete running one-worker pool,
`resize(0)` accesses exactly index 0 of the length-1 vectors, which is in
bounds. -/
theorem resize_index_bounds_witness :
    (thread_pool.WF poolOneWorker ∧ (0 : Int) ≤ 0 ∧
      ((0 : Int), (1 : Nat)) ∈ thread_pool.poolResizeAccesses poolOneWorker 0) ∧
    (0 ≤ ((0 : Int), (1 : Nat)).1 ∧ ((0 : Int), (1 : Nat)).1 < (((0 : Int), (1 : Nat)).2 : Int)) :=
  ⟨⟨rfl, by decide, by decide⟩,
    resize_index_bounds.1 poolOneWorker 0 rfl (by decide) ((0 : Int), (1 : Nat))
      (by decide)⟩

/-! ## Preservation of well-formedness

Every pool operation preserves `WF`, and the freshly initialised pool is
well-formed, so every reachable pool state satisfies the `WF` hypotheses used
above. -/

theorem wf_init : thread_pool.WF thread_pool.init := rfl

theorem wf_clear_queue (st : thread_pool) (h : thread_pool.WF st) :
    thread_pool.WF (thread_pool.clear_queue st) := h

theorem wf_push (t : Nat) (st : thread_pool) (h : thread_pool.WF st) :
    thread_pool.WF (thread_pool.push t st) := h

theorem wf_pool_pop (st : thread_pool) (h : thread_pool.WF st) :
    thread_pool.WF (thread_pool.pool_pop st).2 := by
  unfold thread_pool.pool_pop
  cases hq : st.q with
  | nil => exact h
  | cons x xs => exact h

theorem wf_stop (w : Bool) (st : thread_pool) (h : thread_pool.WF st) :
    thread_pool.WF (thread_pool.stop w st) := by
  unfold thread_pool.stop
  split
  · split
    · exact h
    · rfl
  · split
    · exact h
    · rfl

theorem wf_resize (n : Int) (st : thread_pool) (h : thread_pool.WF st) :
    thread_pool.WF (thread_pool.resize n st) := by
  by_cases hr : st.isStop = false ∧ st.isDone = false
  · by_cases hg : (st.threads.length : Int) ≤ n
    · rw [resize_grow_eq st n hr.1 hr.2 hg]
      show (st.threads ++ List.replicate (n.toNat - st.threads.length) ()).length =
        (st.flags ++ (List.range (n.toNat - st.threads.length)).map
          (fun j => st.nextId + j)).length
      rw [List.length_append, List.length_append, List.length_replicate,
        List.length_map, List.length_range, h]
    · rw [resize_shrink_eq st n hr.1 hr.2 hg]
      show (st.threads.take n.toNat).length = (st.flags.take n.toNat).length
      rw [List.length_take, List.length_take, h]
  · have hnoop : thread_pool.resize n st = st := by
      show (if st.isStop = false ∧ st.isDone = false then _ else st) = st
      rw [if_neg hr]
    rw [hnoop]
    exact h

end Ctpl
